import Mathlib

/-!
Verification of the Seed-Oss configuration and model wiring
(`seed_oss_configuration.py` and `modeling_seed_oss.py`).

The Python code is shallowly embedded: machine tensors are lists,
token ids are integers, floats that only get compared are rationals,
optional arguments are `Option`, and the in-place cache mutation of
the forward pass is made explicit.
-/

namespace SeedOss

/-- Payload of the optional `rope_parameters` dictionary.  The only key the
configuration reads by name is `rope_theta` (lines 151 and 152 of the
configuration file); the remaining keys are only split off into
`rope_scaling`, which no claim here touches, so they are not modelled. -/
structure RopeParameters where
  rope_theta : Option ℚ
  deriving Repr, DecidableEq

/-- Resolved configuration fields that the claims mention.  Fields of
`SeedOssConfig.__init__` that are stored unchanged and unread by the claims
(vocab_size, dropout rates, bias flags, ...) are omitted. -/
structure SeedOssConfig where
  hidden_size : ℕ
  num_hidden_layers : ℕ
  num_attention_heads : ℕ
  num_key_value_heads : ℕ
  max_position_embeddings : ℕ
  pad_token_id : Option ℤ
  layer_types : List String
  head_dim : ℕ
  rope_theta : ℚ
  deriving Repr, DecidableEq

/-- Embedding of `SeedOssConfig.__init__` (configuration file, lines 77-172).
Parameters appear in signature order; `kwargs_rope_theta` stands for a
`rope_theta` entry of `**kwargs`, popped on line 112.  The Python signature
defaults are applied by `mkSeedOssConfigDefaults` below; in particular the
signature default for `head_dim` is `128`, not `None`.
Body, line by line:
line 120-122: `num_key_value_heads` falls back to `num_attention_heads`;
line 143: `layer_types or [...]` keeps a truthy (non-empty) list and
replaces `None` or `[]` by `full_attention` repeated `num_hidden_layers`
times;
line 145: `head_dim` falls back to floor division
`hidden_size // num_attention_heads` only when `None` is passed;
lines 150-155: `rope_theta` resolution — the explicit argument, else the
legacy kwarg, overridden by a non-`None` `rope_theta` key of
`rope_parameters`, with final default `10000.0`. -/
def mkSeedOssConfig
    (hidden_size : ℕ)
    (num_hidden_layers : ℕ)
    (num_attention_heads : ℕ)
    (num_key_value_heads : Option ℕ)
    (max_position_embeddings : ℕ)
    (pad_token_id : Option ℤ)
    (rope_parameters : Option RopeParameters)
    (rope_theta : Option ℚ)
    (head_dim : Option ℕ)
    (layer_types : Option (List String))
    (kwargs_rope_theta : Option ℚ) : SeedOssConfig :=
  let num_key_value_heads_value := num_key_value_heads.getD num_attention_heads
  let layer_types_value :=
    match layer_types with
    | some l => if l.isEmpty then List.replicate num_hidden_layers "full_attention" else l
    | none => List.replicate num_hidden_layers "full_attention"
  let head_dim_value := head_dim.getD (hidden_size / num_attention_heads)
  let rope_theta_step1 :=
    match rope_theta with
    | some t => some t
    | none => kwargs_rope_theta
  let rope_theta_step2 :=
    match rope_parameters with
    | some rp =>
      match rp.rope_theta with
      | some t => some t
      | none => rope_theta_step1
    | none => rope_theta_step1
  { hidden_size := hidden_size
    num_hidden_layers := num_hidden_layers
    num_attention_heads := num_attention_heads
    num_key_value_heads := num_key_value_heads_value
    max_position_embeddings := max_position_embeddings
    pad_token_id := pad_token_id
    layer_types := layer_types_value
    head_dim := head_dim_value
    rope_theta := rope_theta_step2.getD 10000 }

/-- The construction with every argument left to its Python signature
default (configuration file, lines 79-108): `hidden_size = 4096`,
`num_hidden_layers = 64`, `num_attention_heads = 80`,
`num_key_value_heads = 8`, `max_position_embeddings = 524288`,
`pad_token_id = 1`, `rope_parameters = None`, `rope_theta = None`,
`head_dim = 128`, `layer_types = None`, and no kwargs. -/
def mkSeedOssConfigDefaults : SeedOssConfig :=
  mkSeedOssConfig 4096 64 80 (some 8) 524288 (some 1) none none (some 128) none none

/-! Base model forward-call control logic (`modeling_seed_oss.py`). -/

/-- Embedding of line 348: the guard
`(input_ids is None) ^ (inputs_embeds is not None)` that decides whether
`SeedOssModel.__call__` raises its `ValueError`. -/
def seedOssInputError {α β : Type} (input_ids : Option α) (inputs_embeds : Option β) : Bool :=
  Bool.xor input_ids.isNone inputs_embeds.isSome

/-- Embedding of line 357: the assertion
`sequence_length <= self.config.max_position_embeddings`; `true` means the
assertion fails and the call raises. -/
def seedOssSeqLenError (sequence_length max_position_embeddings : ℕ) : Bool :=
  ! decide (sequence_length ≤ max_position_embeddings)

/-- Runtime execution modes distinguished on lines 377-382
(`common_types.MODE_DECODE` and `common_types.MODE_TRAIN`). -/
inductive RuntimeMode where
  | train : RuntimeMode
  | decode : RuntimeMode
  deriving Repr, DecidableEq

/-- A `TransformerCache`: one optional cache view per layer.  The view type
is abstract — nothing in these files looks inside a view. -/
structure TransformerCache (ν : Type) where
  views : List (Option ν)
  deriving Repr, DecidableEq

/-- Modelled from the spec: `TransformerCache.init_empty(n)` (line 385)
creates an empty cache, one view per layer, no view filled.  The cache type
lives outside these two files; the spec describes the call as initializing
an empty cache with one view per layer. -/
def TransformerCache.initEmpty (ν : Type) (n : ℕ) : TransformerCache ν :=
  ⟨List.replicate n none⟩

/-- A cache is empty when no layer view is filled, as after `initEmpty`. -/
def TransformerCache.isEmpty {ν : Type} (c : TransformerCache ν) : Bool :=
  c.views.all Option.isNone

/-- Embedding of lines 377-382: when `mode` is unset it becomes `decode`
exactly when `sequence_length == 1 and past_key_values is not None`, else
`train`. -/
def inferMode {ν : Type} (mode : Option RuntimeMode) (sequence_length : ℕ)
    (past_key_values : Option (TransformerCache ν)) : RuntimeMode :=
  match mode with
  | some m => m
  | none =>
    if sequence_length = 1 ∧ past_key_values.isSome = true then RuntimeMode.decode
    else RuntimeMode.train

/-- Map with the element index, used to model the layer loop writing
`past_key_values[layer_idx]` for each `layer_idx` in order (line 415). -/
def mapWithIndexFrom {α β : Type} (f : ℕ → α → β) : ℕ → List α → List β
  | _, [] => []
  | i, x :: xs => f i x :: mapWithIndexFrom f (i + 1) xs

/-- Map with the element index starting at zero. -/
def mapWithIndex {α β : Type} (f : ℕ → α → β) (xs : List α) : List β :=
  mapWithIndexFrom f 0 xs

/-- Embedding of the layer loop of `SeedOssModel.__call__` (lines 396-415)
restricted to its effect on the cache: layer `i` receives
`past_key_values.views[i]` and the loop stores the updated view back at
index `i`.  The attention update itself lives outside these files, so it is
an abstract function `updateView` from layer index and previous view to new
view. -/
def runLayerStack {ν : Type} (updateView : ℕ → Option ν → Option ν)
    (cache : TransformerCache ν) : TransformerCache ν :=
  ⟨mapWithIndex updateView cache.views⟩

/-- Cache produced by `SeedOssModel.__call__` and returned in its
`BaseModelOutput.past_key_values` (lines 384-385, 415, 427): the supplied
cache, or a fresh empty one when `None` was supplied, with every layer view
updated by the layer loop. -/
def seedOssModelCache {ν : Type} (updateView : ℕ → Option ν → Option ν)
    (num_layers : ℕ) (past_key_values : Option (TransformerCache ν)) : TransformerCache ν :=
  runLayerStack updateView (past_key_values.getD (TransformerCache.initEmpty ν num_layers))

/-- The two cache values visible after
`SeedOssForSequenceClassification.__call__`: the cache held by the base
model output, and the `past_key_values` field of the returned
`SequenceClassifierOutput`. -/
structure SeqClsCacheResult (ν : Type) where
  base_model_cache : TransformerCache ν
  returned_cache : Option (TransformerCache ν)
  deriving Repr, DecidableEq

/-- Embedding of the cache flow of
`SeedOssForSequenceClassification.__call__` (lines 572-611).  The head
forwards `past_key_values` to the base model, which mutates a supplied
cache object in place (line 415), and on line 610 the head returns its own
`past_key_values` argument — not `transformer_outputs.past_key_values`.
Because the mutation is in place, a supplied cache argument is the very
object the base model updated; an absent argument stays `None` even though
the base model created and updated a fresh cache internally. -/
def seqClsForwardCache {ν : Type} (updateView : ℕ → Option ν → Option ν)
    (num_layers : ℕ) (past_key_values : Option (TransformerCache ν)) : SeqClsCacheResult ν :=
  let updated := seedOssModelCache updateView num_layers past_key_values
  { base_model_cache := updated
    returned_cache :=
      match past_key_values with
      | some _ => some updated
      | none => none }

/-! Position-id derivation (lines 369-373). -/

/-- Modelled from the spec: `MaskInfo.dynamic_init` (line 362, external
`ejkernel` dependency) produces per-token segment ids; per the spec the
derivation counts valid (unmasked) tokens, and with no attention mask every
position of an unpadded batch is valid, so a row of segment ids for an
unpadded sequence of length `L` is `L` ones. -/
def unpaddedSegmentIds (L : ℕ) : List ℤ :=
  List.replicate L 1

/-- Running prefix sums with an accumulator; `cumsumFrom 0` is
`jnp.cumsum` along the last axis for one row. -/
def cumsumFrom (acc : ℤ) : List ℤ → List ℤ
  | [] => []
  | x :: xs => (acc + x) :: cumsumFrom (acc + x) xs

/-- One row of `jnp.cumsum(..., axis=-1)`. -/
def cumsum (xs : List ℤ) : List ℤ :=
  cumsumFrom 0 xs

/-- Embedding of lines 370-372 for one row:
`jnp.clip(jnp.cumsum(segment_ids, axis=-1) - 1, min=0)`. -/
def derivePositionIdsRow (segment_ids : List ℤ) : List ℤ :=
  (cumsum segment_ids).map (fun c => max (c - 1) 0)

/-- Embedding of lines 369-373: the clipped cumulative sum broadcast to
`(batch_size, sequence_length)`; with a shared row of segment ids the
broadcast repeats the row once per batch element. -/
def derivePositionIds (batch_size : ℕ) (segment_ids : List ℤ) : List (List ℤ) :=
  List.replicate batch_size (derivePositionIdsRow segment_ids)

/-! Sequence-classification pooling (lines 588-604). -/

/-- Modelled from the numerical engine: `jnp.argmax` over one row returns
the index of the first occurrence of the maximum, and `0` for an empty
row.  `argmaxAux best bestIdx i xs` scans `xs` whose first element has
index `i`, with the running maximum `best` first seen at `bestIdx`. -/
def argmaxAux (best : ℤ) (bestIdx : ℕ) (i : ℕ) : List ℤ → ℕ
  | [] => bestIdx
  | x :: xs => if best < x then argmaxAux x i (i + 1) xs else argmaxAux best bestIdx (i + 1) xs

/-- First index of the maximum of a row, as `jnp.argmax(..., -1)`. -/
def jnpArgmax : List ℤ → ℕ
  | [] => 0
  | x :: xs => argmaxAux x 0 1 xs

/-- Embedding of `jnp.equal(input_ids, pad_token_id).astype("i4")` on one
row (line 599): `1` where the token equals the pad token, else `0`. -/
def padEqualsMask (input_ids : List ℤ) (pad : ℤ) : List ℤ :=
  input_ids.map (fun t => if t = pad then 1 else 0)

/-- Embedding of lines 593-602 for one sequence: the row index pooled by
`SeedOssForSequenceClassification.__call__`.  With a configured pad token
and `input_ids` supplied it is
`(argmax(equal(input_ids, pad)) - 1) % seq_len` (lines 599-600, with the
Python sign convention for `%`); with `input_ids` absent, or no pad token
configured, it is the literal index `-1` (lines 596 and 602). -/
def seqClsSequenceLength (pad_token_id : Option ℤ) (input_ids : Option (List ℤ)) : ℤ :=
  match pad_token_id with
  | none => -1
  | some pad =>
    match input_ids with
    | some ids => ((jnpArgmax (padEqualsMask ids pad) : ℤ) - 1) % (ids.length : ℤ)
    | none => -1

/-- Modelled from the numerical engine: indexing a row axis of length `L`
at integer `i` (line 604) wraps negative indices, so the selected position
is `i % L` under the Python sign convention. -/
def pooledRowIndex (L : ℕ) (i : ℤ) : ℕ :=
  (i % (L : ℤ)).toNat

/-- Counterexample configuration for the layer-types length invariant: two
hidden layers, but an explicitly supplied one-element `layer_types` list;
the other arguments are the signature defaults. -/
def layerTypesCounterConfig : SeedOssConfig :=
  mkSeedOssConfig 4096 2 80 (some 8) 524288 (some 1) none none (some 128)
    (some ["full_attention"]) none

/-! Theorems. -/

/-- C1, counterexample: constructing a configuration with every argument
left to its Python signature default gives `head_dim = 128` (the signature
default on line 103), while
`hidden_size / num_attention_heads = 4096 / 80 = 51`, so the resolved
`head_dim` does not equal `hidden_size / num_attention_heads` when no
explicit value is given. -/
theorem seedoss_head_dim_default_counterexample :
    mkSeedOssConfigDefaults.head_dim ≠
      mkSeedOssConfigDefaults.hidden_size / mkSeedOssConfigDefaults.num_attention_heads := by
  decide

/-- C1, amended: the resolved `head_dim` equals the passed value whenever a
non-`None` value is passed — including the signature default `128` used
when the argument is omitted — and equals the floor division
`hidden_size / num_attention_heads` exactly when `None` is passed
(line 145); no exactness check is performed. -/
theorem seedoss_head_dim_resolution_amended
    (hs nhl nah mpe : ℕ) (nkv : Option ℕ) (pad : Option ℤ)
    (rp : Option RopeParameters) (rt : Option ℚ) (lt : Option (List String))
    (kw : Option ℚ) (v : ℕ) :
    (mkSeedOssConfig hs nhl nah nkv mpe pad rp rt (some v) lt kw).head_dim = v
      ∧ (mkSeedOssConfig hs nhl nah nkv mpe pad rp rt none lt kw).head_dim = hs / nah :=
  ⟨rfl, rfl⟩

/-- C4, counterexample: a configuration constructed with
`num_hidden_layers = 2` and an explicitly supplied non-empty
`layer_types = ["full_attention"]` keeps the supplied list unchanged
(line 143 performs no length check), so its length is `1`, not
`num_hidden_layers`. -/
theorem seedoss_layer_types_length_counterexample :
    layerTypesCounterConfig.layer_types.length ≠ layerTypesCounterConfig.num_hidden_layers := by
  decide

/-- C4, amended: the resolved `layer_types` has length `num_hidden_layers`
when the argument is `None` or the empty list (both falsy, so line 143
substitutes the default of `num_hidden_layers` copies of
`full_attention`); an explicitly supplied non-empty list is kept verbatim,
so its length equals `num_hidden_layers` only when the caller supplies a
list of that length. -/
theorem seedoss_layer_types_resolution_amended
    (hs nhl nah mpe : ℕ) (nkv : Option ℕ) (pad : Option ℤ)
    (rp : Option RopeParameters) (rt : Option ℚ) (hd : Option ℕ)
    (kw : Option ℚ) (l : List String) (h : l ≠ []) :
    (mkSeedOssConfig hs nhl nah nkv mpe pad rp rt hd none kw).layer_types.length = nhl
      ∧ (mkSeedOssConfig hs nhl nah nkv mpe pad rp rt hd (some []) kw).layer_types.length = nhl
      ∧ (mkSeedOssConfig hs nhl nah nkv mpe pad rp rt hd (some l) kw).layer_types = l := by
  refine ⟨by simp [mkSeedOssConfig], by simp [mkSeedOssConfig], ?_⟩
  simp [mkSeedOssConfig, List.isEmpty_iff, h]

/-- C4, witness for the amended theorem at `num_hidden_layers = 2` and the
supplied non-empty list `["full_attention"]`. -/
theorem seedoss_layer_types_resolution_amended_witness :
    (mkSeedOssConfig 4096 2 80 (some 8) 524288 (some 1) none none (some 128) none
        none).layer_types.length = 2
      ∧ (mkSeedOssConfig 4096 2 80 (some 8) 524288 (some 1) none none (some 128) (some [])
        none).layer_types.length = 2
      ∧ (mkSeedOssConfig 4096 2 80 (some 8) 524288 (some 1) none none (some 128)
        (some ["full_attention"]) none).layer_types = ["full_attention"] :=
  seedoss_layer_types_resolution_amended 4096 2 80 524288 (some 8) (some 1) none none
    (some 128) none ["full_attention"] (by decide)

/-- C5: the guard on line 348 raises the invalid-argument error exactly
when `input_ids` and `inputs_embeds` are both supplied or both absent; with
exactly one of the two supplied no error is raised. -/
theorem seedoss_input_validation_iff {α β : Type}
    (input_ids : Option α) (inputs_embeds : Option β) :
    seedOssInputError input_ids inputs_embeds = true ↔
      ((input_ids.isSome = true ∧ inputs_embeds.isSome = true)
        ∨ (input_ids = none ∧ inputs_embeds = none)) := by
  cases input_ids <;> cases inputs_embeds <;> simp [seedOssInputError]

/-- C6: resolution of `rope_theta` (lines 111-112 and 150-155).  A
non-`None` `rope_theta` key of the `rope_parameters` dictionary wins over
the explicit `rope_theta` argument, which wins over a legacy `rope_theta`
keyword argument, which wins over the default `10000.0`: supplying all
three yields the `rope_parameters` value, supplying only the latter two
yields the explicit argument, supplying only the legacy keyword yields it,
and supplying none yields `10000.0`; a `rope_parameters` dictionary whose
`rope_theta` entry is `None` does not override. -/
theorem seedoss_rope_theta_precedence
    (hs nhl nah mpe : ℕ) (nkv : Option ℕ) (pad : Option ℤ) (hd : Option ℕ)
    (lt : Option (List String)) (t a k : ℚ) :
    (mkSeedOssConfig hs nhl nah nkv mpe pad (some ⟨some t⟩) (some a) hd lt (some k)).rope_theta = t
      ∧ (mkSeedOssConfig hs nhl nah nkv mpe pad none (some a) hd lt (some k)).rope_theta = a
      ∧ (mkSeedOssConfig hs nhl nah nkv mpe pad (some ⟨none⟩) (some a) hd lt (some k)).rope_theta = a
      ∧ (mkSeedOssConfig hs nhl nah nkv mpe pad none none hd lt (some k)).rope_theta = k
      ∧ (mkSeedOssConfig hs nhl nah nkv mpe pad none none hd lt none).rope_theta = 10000 :=
  ⟨rfl, rfl, rfl, rfl, rfl⟩

/-- C7, counterexample: with the mode unset and sequence length `1`, a
supplied but empty prior cache (as produced by `init_empty`, no view
filled) already makes line 380 infer `decode`, because the code only tests
`past_key_values is not None`; the claim predicts `train` for an empty
cache. -/
theorem seedoss_mode_empty_cache_counterexample :
    inferMode none 1 (some (TransformerCache.initEmpty ℕ 2)) = RuntimeMode.decode
      ∧ (TransformerCache.initEmpty ℕ 2).isEmpty = true := by
  decide

/-- C7, amended: with the mode unset, the inferred mode is `decode` exactly
when the sequence length is `1` and a prior cache is supplied (present,
regardless of whether any of its views is filled), and `train` in every
other combination. -/
theorem seedoss_mode_inference_amended {ν : Type} (L : ℕ)
    (past_key_values : Option (TransformerCache ν)) :
    inferMode none L past_key_values = RuntimeMode.decode ↔
      (L = 1 ∧ past_key_values.isSome = true) := by
  unfold inferMode
  by_cases h : L = 1 ∧ past_key_values.isSome = true <;> simp [h]

/-- C8: the assertion on line 357 fails exactly when the sequence length
exceeds `max_position_embeddings`; in particular it fails at
`max_position_embeddings + 1` and succeeds at equality. -/
theorem seedoss_seq_len_validation_iff (L m : ℕ) :
    seedOssSeqLenError L m = true ↔ m < L := by
  simp [seedOssSeqLenError, Nat.not_le]

/-- C3, counterexample: calling the sequence-classification head with no
prior cache returns `None` in the `past_key_values` field of its output
(line 610 returns the call argument), even though the base model created
and updated a fresh cache internally; here with one layer and a concrete
view update the two differ. -/
theorem seedoss_seqcls_cache_none_counterexample :
    (seqClsForwardCache (fun _ _ => some 0) 1 (none : Option (TransformerCache ℕ))).returned_cache
      ≠ some (seqClsForwardCache (fun _ _ => some 0) 1
        (none : Option (TransformerCache ℕ))).base_model_cache := by
  decide

/-- C3, amended: the `past_key_values` field returned by the
sequence-classification head is the caller-supplied argument; when a prior
cache was supplied this is the same object the base model updated in place,
so it equals the updated cache of the layer stack, but when no cache was
supplied the field is `None` even though the base model created and updated
a fresh cache. -/
theorem seedoss_seqcls_cache_amended {ν : Type}
    (updateView : ℕ → Option ν → Option ν) (n : ℕ) (c : TransformerCache ν) :
    (seqClsForwardCache updateView n (some c)).returned_cache
        = some (seqClsForwardCache updateView n (some c)).base_model_cache
      ∧ (seqClsForwardCache updateView n none).returned_cache = none :=
  ⟨rfl, rfl⟩

/-- Prefix sums of a row of ones are the integers from `acc + 1` on. -/
theorem cumsumFrom_replicate_one (L : ℕ) :
    ∀ acc : ℤ, cumsumFrom acc (List.replicate L 1)
      = List.map (fun i : ℕ => acc + 1 + (i : ℤ)) (List.range L) := by
  induction L with
  | zero => intro acc; simp [cumsumFrom]
  | succ n ih =>
    intro acc
    rw [List.replicate_succ]
    show (acc + 1) :: cumsumFrom (acc + 1) (List.replicate n 1) = _
    rw [ih (acc + 1), List.range_succ_eq_map, List.map_cons, List.map_map]
    have hf : ((fun i : ℕ => acc + 1 + (i : ℤ)) ∘ Nat.succ)
        = (fun i : ℕ => acc + 1 + 1 + (i : ℤ)) := by
      funext i
      show acc + 1 + ((Nat.succ i : ℕ) : ℤ) = acc + 1 + 1 + (i : ℤ)
      push_cast
      ring
    rw [hf]
    simp

/-- The clipped cumulative sum of an all-ones segment row is the identity
ramp `[0, 1, ..., L-1]`. -/
theorem derivePositionIdsRow_unpadded (L : ℕ) :
    derivePositionIdsRow (unpaddedSegmentIds L)
      = List.map (fun i : ℕ => (i : ℤ)) (List.range L) := by
  unfold derivePositionIdsRow unpaddedSegmentIds cumsum
  rw [cumsumFrom_replicate_one L 0, List.map_map]
  have hf : ((fun c : ℤ => max (c - 1) 0) ∘ fun i : ℕ => (0 : ℤ) + 1 + (i : ℤ))
      = fun i : ℕ => (i : ℤ) := by
    funext i
    show max ((0 : ℤ) + 1 + (i : ℤ) - 1) 0 = (i : ℤ)
    have h0 : (0 : ℤ) + 1 + (i : ℤ) - 1 = (i : ℤ) := by ring
    rw [h0]
    exact max_eq_left (Int.natCast_nonneg i)
  rw [hf]

/-- C9: for an unpadded batch of length `L` with no explicit attention mask
and no explicit position ids, the derived position ids of every sequence
are `[0, 1, ..., L-1]`. -/
theorem seedoss_position_ids_unpadded (batch_size L : ℕ) :
    derivePositionIds batch_size (unpaddedSegmentIds L)
      = List.replicate batch_size (List.map (fun i : ℕ => (i : ℤ)) (List.range L)) := by
  unfold derivePositionIds
  rw [derivePositionIdsRow_unpadded]

/-- Unfolding of the pad mask on a cons cell. -/
theorem padEqualsMask_cons (t : ℤ) (ids : List ℤ) (pad : ℤ) :
    padEqualsMask (t :: ids) pad = (if t = pad then 1 else 0) :: padEqualsMask ids pad :=
  rfl

/-- Every entry of the pad mask is at most one. -/
theorem padEqualsMask_le_one (ids : List ℤ) (pad : ℤ) :
    ∀ x ∈ padEqualsMask ids pad, x ≤ 1 := by
  intro x hx
  rcases List.mem_map.mp hx with ⟨t, _ht, rfl⟩
  by_cases hp : t = pad <;> simp [hp]

/-- With no pad token in the row, every entry of the pad mask is zero or
less. -/
theorem padEqualsMask_nonpos (ids : List ℤ) (pad : ℤ) (h : pad ∉ ids) :
    ∀ x ∈ padEqualsMask ids pad, x ≤ 0 := by
  intro x hx
  rcases List.mem_map.mp hx with ⟨t, ht, rfl⟩
  have hp : t ≠ pad := fun e => h (e ▸ ht)
  simp [hp]

/-- The scan never moves off its running best when nothing in the rest of
the row exceeds it. -/
theorem argmaxAux_of_all_le (xs : List ℤ) : ∀ (best : ℤ) (bi i : ℕ),
    (∀ x ∈ xs, x ≤ best) → argmaxAux best bi i xs = bi := by
  induction xs with
  | nil => intro best bi i _; rfl
  | cons x xs ih =>
    intro best bi i h
    have hx : ¬ best < x := not_lt.mpr (h x (by simp))
    simp only [argmaxAux, if_neg hx]
    exact ih best bi (i + 1) (fun y hy => h y (by simp [hy]))

/-- Scanning the pad mask of a row that contains the pad token, from a
running best of zero, lands on the first pad position. -/
theorem argmaxAux_padEqualsMask (ids : List ℤ) (pad : ℤ) :
    ∀ (bi i : ℕ), pad ∈ ids →
      argmaxAux 0 bi i (padEqualsMask ids pad)
        = i + ids.findIdx (fun t => decide (t = pad)) := by
  induction ids with
  | nil => intro bi i h; exact absurd h (List.not_mem_nil pad)
  | cons t ids ih =>
    intro bi i h
    by_cases hp : t = pad
    · rw [padEqualsMask_cons, if_pos hp]
      have h1 : argmaxAux (0 : ℤ) bi i ((1 : ℤ) :: padEqualsMask ids pad)
          = argmaxAux 1 i (i + 1) (padEqualsMask ids pad) := by
        simp only [argmaxAux, if_pos (by norm_num : (0 : ℤ) < 1)]
      rw [h1, argmaxAux_of_all_le _ _ _ _ (padEqualsMask_le_one ids pad), List.findIdx_cons]
      simp [hp]
    · have hmem : pad ∈ ids := by
        rcases List.mem_cons.mp h with h1 | h1
        · exact absurd h1.symm hp
        · exact h1
      rw [padEqualsMask_cons, if_neg hp]
      have h1 : argmaxAux (0 : ℤ) bi i ((0 : ℤ) :: padEqualsMask ids pad)
          = argmaxAux 0 bi (i + 1) (padEqualsMask ids pad) := by
        simp only [argmaxAux, if_neg (lt_irrefl (0 : ℤ))]
      have hfind : List.findIdx (fun x => decide (x = pad)) (t :: ids)
          = List.findIdx (fun x => decide (x = pad)) ids + 1 := by
        simp [List.findIdx_cons, hp]
      rw [h1, ih bi (i + 1) hmem, hfind]
      omega

/-- A row with no pad token has an all-zero pad mask, whose first maximum
index is zero. -/
theorem jnpArgmax_padEqualsMask_no_pad (ids : List ℤ) (pad : ℤ) (h : pad ∉ ids) :
    jnpArgmax (padEqualsMask ids pad) = 0 := by
  cases ids with
  | nil => rfl
  | cons t ids =>
    have hp : t ≠ pad := fun e => h (by simp [e])
    rw [padEqualsMask_cons, if_neg hp]
    show argmaxAux 0 0 1 (padEqualsMask ids pad) = 0
    exact argmaxAux_of_all_le _ _ _ _
      (padEqualsMask_nonpos ids pad (fun hm => h (List.mem_cons_of_mem t hm)))

/-- On a row containing the pad token, the first maximum of the pad mask is
the index of the first pad token. -/
theorem jnpArgmax_padEqualsMask_mem (ids : List ℤ) (pad : ℤ) (h : pad ∈ ids) :
    jnpArgmax (padEqualsMask ids pad) = ids.findIdx (fun t => decide (t = pad)) := by
  cases ids with
  | nil => exact absurd h (List.not_mem_nil pad)
  | cons t ids =>
    by_cases hp : t = pad
    · rw [padEqualsMask_cons, if_pos hp]
      show argmaxAux 1 0 1 (padEqualsMask ids pad) = _
      rw [argmaxAux_of_all_le _ _ _ _ (padEqualsMask_le_one ids pad), List.findIdx_cons]
      simp [hp]
    · have hmem : pad ∈ ids := by
        rcases List.mem_cons.mp h with h1 | h1
        · exact absurd h1.symm hp
        · exact h1
      rw [padEqualsMask_cons, if_neg hp]
      show argmaxAux 0 0 1 (padEqualsMask ids pad) = _
      have hfind : List.findIdx (fun x => decide (x = pad)) (t :: ids)
          = List.findIdx (fun x => decide (x = pad)) ids + 1 := by
        simp [List.findIdx_cons, hp]
      rw [argmaxAux_padEqualsMask ids pad 0 1 hmem, hfind]
      omega

/-- Under the Python sign convention, `-1` reduced modulo a positive `n` is
`n - 1`. -/
theorem neg_one_emod_eq (n : ℕ) (h : 0 < n) : (-1 : ℤ) % (n : ℤ) = (n : ℤ) - 1 := by
  have h1 : ((-1 : ℤ) + (n : ℤ) * 1) % (n : ℤ) = (-1 : ℤ) % (n : ℤ) :=
    Int.add_mul_emod_self_left (-1) (n : ℤ) 1
  have h2 : ((-1 : ℤ) + (n : ℤ) * 1) = (n : ℤ) - 1 := by ring
  rw [h2] at h1
  rw [← h1]
  exact Int.emod_eq_of_lt (by omega) (by omega)

/-- C2: with a configured pad token and `input_ids` supplied, the pooled
row index equals `(argmax(input_ids == pad) - 1) mod seq_len`, which is one
position before the first pad token when a pad token occurs, and the last
position of the sequence when none occurs. -/
theorem seedoss_classification_pooling_ids (ids : List ℤ) (pad : ℤ) (h : ids ≠ []) :
    (pad ∉ ids → seqClsSequenceLength (some pad) (some ids) = (ids.length : ℤ) - 1)
      ∧ (pad ∈ ids → seqClsSequenceLength (some pad) (some ids)
          = ((ids.findIdx (fun t => decide (t = pad)) : ℤ) - 1) % (ids.length : ℤ)) := by
  have hL : 0 < ids.length := List.length_pos.mpr h
  constructor
  · intro hnp
    show ((jnpArgmax (padEqualsMask ids pad) : ℤ) - 1) % (ids.length : ℤ) = _
    rw [jnpArgmax_padEqualsMask_no_pad ids pad hnp]
    simpa using neg_one_emod_eq ids.length hL
  · intro hp
    show ((jnpArgmax (padEqualsMask ids pad) : ℤ) - 1) % (ids.length : ℤ) = _
    rw [jnpArgmax_padEqualsMask_mem ids pad hp]

/-- C2, witness: the spec examples — pad token `1` with input `[5, 7, 1, 1]`
pools index `1`, and the pad-free input `[5, 7, 2, 3]` of length four pools
the last index `3`. -/
theorem seedoss_classification_pooling_ids_witness :
    seqClsSequenceLength (some 1) (some [5, 7, 1, 1]) = 1
      ∧ seqClsSequenceLength (some 1) (some [5, 7, 2, 3]) = 3 := by
  constructor
  · have h := (seedoss_classification_pooling_ids [5, 7, 1, 1] 1 (by decide)).2 (by decide)
    rw [h]
    decide
  · have h := (seedoss_classification_pooling_ids [5, 7, 2, 3] 1 (by decide)).1 (by decide)
    rw [h]
    decide

/-- C10: with `inputs_embeds` supplied instead of `input_ids`, even with a
pad token configured, the pooled row index is the literal `-1` (line 602),
which selects the last position of every sequence of positive length. -/
theorem seedoss_embeds_pooling_last (pad : ℤ) (L : ℕ) (h : 0 < L) :
    seqClsSequenceLength (some pad) none = -1
      ∧ pooledRowIndex L (seqClsSequenceLength (some pad) none) = L - 1 := by
  refine ⟨rfl, ?_⟩
  show ((-1 : ℤ) % (L : ℤ)).toNat = L - 1
  rw [neg_one_emod_eq L h]
  omega

/-- C10, witness at pad token `1` and sequence length four: the pooled row
index is the last position, three. -/
theorem seedoss_embeds_pooling_last_witness :
    seqClsSequenceLength (some 1) none = -1
      ∧ pooledRowIndex 4 (seqClsSequenceLength (some 1) none) = 3 :=
  seedoss_embeds_pooling_last 1 4 (by decide)

end SeedOss
